import Mathlib

/-
Shallow embedding of the tsgo TeamSpeak 3 Server Query client (src/ts.go)
and proofs about the claims of its specification.

The embedding models:
  - the wire codec: strings.Fields tokenisation, key=value splitting,
    the TeamSpeak space escaping convention (space to backslash-s) and
    its inverse (Response.Msg);
  - parseResponse, writeSuccess, strconv.Atoi;
  - one iteration of the listener loop (listen) over a decoded line;
  - the bootstrap exchange driven by Start (banner, login, use,
    servernotifyregister) over an explicit transport trace;
  - the kill/clean shutdown handshake between the listener goroutine and
    close() as a small transition system;
  - the constructor New and its configuration validation.

Strings are handled through List Char so that every definition is
structurally recursive and computable by the kernel.
-/

namespace Tsgo

/-- The space predicate used by Go's strings.Fields and strings.TrimSpace
(unicode.IsSpace: the Unicode White_Space code points). -/
def goIsSpace (c : Char) : Bool :=
  c.val = 9 || c.val = 10 || c.val = 11 || c.val = 12 || c.val = 13 ||
  c.val = 32 || c.val = 133 || c.val = 160 || c.val = 5760 ||
  (8192 ≤ c.val && c.val ≤ 8202) || c.val = 8232 || c.val = 8233 ||
  c.val = 8239 || c.val = 8287 || c.val = 12288

/-- Accumulator-based worker for goFields; cur holds the current token in
reverse order. -/
def goFieldsAux (cur : List Char) : List Char → List (List Char)
  | [] => if cur = [] then [] else [cur.reverse]
  | c :: rest =>
    if goIsSpace c then
      if cur = [] then goFieldsAux [] rest
      else cur.reverse :: goFieldsAux [] rest
    else goFieldsAux (c :: cur) rest

/-- Go strings.Fields: split around runs of white space, dropping empties. -/
def goFields (l : List Char) : List (List Char) :=
  goFieldsAux [] l

/-- Go strings.Split(s, "=") for a one-character separator: all the
segments of s between occurrences of the equals sign, empties kept. -/
def goSplitEq : List Char → List (List Char)
  | [] => [[]]
  | c :: rest =>
    if c = '=' then [] :: goSplitEq rest
    else
      match goSplitEq rest with
      | [] => [[c]]
      | t :: ts => (c :: t) :: ts

/-- Go strings.TrimSpace: drop white space from both ends. -/
def goTrim (l : List Char) : List Char :=
  ((l.dropWhile goIsSpace).reverse.dropWhile goIsSpace).reverse

/-- Go map assignment vals[k] = v on an association list: any earlier
binding of k is removed and the new one appended. -/
def mapInsert (k v : String) (m : List (String × String)) : List (String × String) :=
  (m.filter (fun p => !(p.1 = k))) ++ [(k, v)]

/-- strings.ReplaceAll(s, " ", backslash-s) on character lists: every
space becomes the two-character escape sequence. -/
def escapeChars : List Char → List Char
  | [] => []
  | c :: rest =>
    if c = ' ' then '\\' :: 's' :: escapeChars rest
    else c :: escapeChars rest

/-- strings.ReplaceAll(s, backslash-s, " ") on character lists: scan left
to right, replacing each non-overlapping backslash-s pair by a space. -/
def unescapeChars : List Char → List Char
  | [] => []
  | [c] => [c]
  | a :: b :: rest =>
    if a = '\\' ∧ b = 's' then ' ' :: unescapeChars rest
    else a :: unescapeChars (b :: rest)

/-- Whether the two-character sequence backslash-s occurs in the list. -/
def hasEsc : List Char → Bool
  | [] => false
  | [_] => false
  | a :: b :: rest => (a = '\\' && b = 's') || hasEsc (b :: rest)

/-- String-level escaping as used when the listener sends a handler reply:
strings.ReplaceAll(reply, " ", backslash-s). -/
def escape (s : String) : String :=
  String.mk (escapeChars s.toList)

/-- String-level unescaping as used by Response.Msg:
strings.ReplaceAll(msg, backslash-s, " "). -/
def unescape (s : String) : String :=
  String.mk (unescapeChars s.toList)

/-- Decidable equality for Except, needed to evaluate parse results. -/
instance {ε α : Type} [DecidableEq ε] [DecidableEq α] : DecidableEq (Except ε α) := fun a b =>
  match a, b with
  | .ok x, .ok y =>
    if h : x = y then isTrue (congrArg Except.ok h)
    else isFalse (fun hc => h (Except.ok.inj hc))
  | .error x, .error y =>
    if h : x = y then isTrue (congrArg Except.error h)
    else isFalse (fun hc => h (Except.error.inj hc))
  | .ok _, .error _ => isFalse (fun hc => Except.noConfusion hc)
  | .error _, .ok _ => isFalse (fun hc => Except.noConfusion hc)

/-- The decode failure of parseResponse (ErrInvalidResponse). -/
inductive ParseErr where
  | invalidResponse
deriving DecidableEq

/-- The response struct: the action token and the key/value data map. -/
structure Response where
  Action : String
  Data : List (String × String)
deriving DecidableEq

/-- The loop of parseResponse over the tokens after the action: each token
is split on the equals sign; fewer than two segments is ErrInvalidResponse,
otherwise vals[spl[0]] = strings.TrimSpace(spl[1]). -/
def buildVals (vals : List (String × String)) : List (List Char) → Except ParseErr (List (String × String))
  | [] => .ok vals
  | f :: fs =>
    match goSplitEq f with
    | [] => .error .invalidResponse
    | [_] => .error .invalidResponse
    | k :: v :: _ => buildVals (mapInsert (String.mk k) (String.mk (goTrim v)) vals) fs

/-- parseResponse: strings.Fields the line; no tokens gives the nil
response with nil error (modelled as ok none); else the first token is the
Action and the rest build the Data map. -/
def parseResponse (res : String) : Except ParseErr (Option Response) :=
  match goFields res.toList with
  | [] => .ok none
  | a :: fs =>
    match buildVals [] fs with
    | .error e => .error e
    | .ok vals => .ok (some ⟨String.mk a, vals⟩)

/-- Response.Msg: the msg field unescaped, or the empty string when the
field is absent. -/
def Response.Msg (r : Response) : String :=
  match r.Data.lookup "msg" with
  | none => ""
  | some m => unescape m

/-- Outcome of writeSuccess after the command was written and the single
reply line was read: ok, decode failure (the raw line attached), wrong
action (ErrInvalidResponse with the raw line), server rejection (the
unescaped msg attached), or a nil-pointer dereference when the line
decodes to the nil response. -/
inductive WSResult where
  | ok
  | parseFailed (raw : String)
  | invalidResponse (raw : String)
  | serverError (reason : String)
  | crash
deriving DecidableEq

/-- writeSuccess, as a function of the reply line the single read returns:
parse the line; a parse error is wrapped with the raw text; a nil parse
result is dereferenced (Go panic, modelled as crash); an Action other than
the error token is ErrInvalidResponse; a Msg other than ok is surfaced as
the server's error text; otherwise success. -/
def writeSuccessCheck (reply : String) : WSResult :=
  match parseResponse reply with
  | .error _ => .parseFailed reply
  | .ok none => .crash
  | .ok (some parsed) =>
    if parsed.Action ≠ "error" then .invalidResponse reply
    else if parsed.Msg ≠ "ok" then .serverError parsed.Msg
    else .ok

/-- Digit-run evaluator for atoi: consumes the whole list, failing on any
non-digit. -/
def allDigitsVal (acc : Nat) : List Char → Option Nat
  | [] => some acc
  | c :: rest =>
    if c.isDigit then allDigitsVal (acc * 10 + (c.toNat - 48)) rest
    else none

/-- strconv.Atoi: optional sign followed by at least one digit; anything
else fails. The 64-bit range check of Go's int is not modelled (the
claims only involve small invoker ids). -/
def atoi (s : String) : Option Int :=
  match s.toList with
  | [] => none
  | ['-'] => none
  | ['+'] => none
  | '-' :: rest => (allDigitsVal 0 rest).map (fun n => -(n : Int))
  | '+' :: rest => (allDigitsVal 0 rest).map (fun n => (n : Int))
  | l => (allDigitsVal 0 l).map (fun n => (n : Int))

/-- The configuration struct; Server is Go's int, zero-valued when the
caller leaves it unset. -/
structure Config where
  Address : String
  Port : String
  Username : String
  Password : String
  Server : Int
deriving DecidableEq

/-- New: reject the configuration when Address, Password, Username or
Port is empty; otherwise the bot is built around the configuration (the
kill/clean channels carry no data and are left implicit). -/
def New (cfg : Config) : Except String Config :=
  if cfg.Address = "" || cfg.Password = "" || cfg.Username = "" || cfg.Port = "" then
    .error "invalid configuration, ensure all fields are present"
  else .ok cfg

/-- The action token of chat events (MSG_ACTION). -/
def MSG_ACTION : String := "notifytextmessage"

/-- The parsed chat event passed to the handler. -/
structure Message where
  Msg : String
  InvokerID : Int
  InvokerName : String
  InvokerUID : String
deriving DecidableEq

/-- The handler type: a reply string and an optional error, mirroring
Go's (string, error) pair. -/
def HandlerFn : Type := Message → String × Option String

/-- The reply command the listener writes back for a non-empty handler
reply: sendtextmessage targetmode=2 target=id msg=escaped-reply. -/
def sendCmd (invId : Int) (reply : String) : String :=
  "sendtextmessage targetmode=2 target=" ++ toString invId ++ " msg=" ++ escape reply

/-- The two ways a listener iteration dereferences nil: a nil response
from parseResponse, or a nil handler function. -/
inductive CrashCause where
  | nilResponse
  | nilHandler
deriving DecidableEq

/-- Observable outcome of processing one line in the listener loop:
whether the handler was invoked and with which Message, which command (if
any) was written back, and whether the iteration panicked. -/
structure LineResult where
  invoked : Option Message := none
  sent : Option String := none
  crash : Option CrashCause := none
deriving DecidableEq

/-- The Message built for the handler from a decoded chat event: the
unescaped msg text, the parsed invoker id, the invokername and the
invokeruid fields (empty when absent). -/
def msgOfR (r : Response) (invId : Int) : Message :=
  ⟨r.Msg, invId, (r.Data.lookup "invokername").getD "",
    (r.Data.lookup "invokeruid").getD ""⟩

/-- One iteration body of the listener loop after a successful read, from
the empty-line guard onward: parse (parse errors are logged and skipped);
a nil response is dereferenced through r.Data (crash); the anti-echo
guard compares the invokeruid field (empty when absent) to the configured
username; chat events parse invokerid with atoi (failure logged and
skipped), then call the handler (nil handler crashes); a handler error is
logged and skipped; a non-empty reply is escaped and sent back. -/
def processLine (cfg : Config) (handler : Option HandlerFn) (line : String) : LineResult :=
  if line = "" ∨ line = "\n" then {}
  else
    match parseResponse line with
    | .error _ => {}
    | .ok none => { crash := some .nilResponse }
    | .ok (some r) =>
      if ((r.Data.lookup "invokeruid").getD "") = cfg.Username then {}
      else if r.Action = MSG_ACTION then
        match atoi ((r.Data.lookup "invokerid").getD "") with
        | none => {}
        | some invId =>
          match handler with
          | none => { crash := some .nilHandler }
          | some f =>
            let m : Message := msgOfR r invId
            match f m with
            | (_, some _) => { invoked := some m }
            | (reply, none) =>
              if reply = "" then { invoked := some m }
              else { invoked := some m, sent := some (sendCmd invId reply) }
      else {}

/-- What the underlying bufio.Scanner produced for one Scan call: a line,
a read-deadline expiry, or any other transport failure (EOF, forced
close, ...). In the last two cases Scan returns false and the error is
only available through the Err method. -/
inductive ScanOutcome where
  | gotLine (s : String)
  | timedOut
  | failed
deriving DecidableEq

/-- The only error value read can produce itself (ErrNotConnected). -/
inductive GoErr where
  | notConnected
deriving DecidableEq

/-- os.IsTimeout on the errors read can return: nil is not a timeout and
neither is ErrNotConnected. -/
def isTimeoutErr : Option GoErr → Bool
  | none => false
  | some .notConnected => false

/-- read: with no connection it returns ErrNotConnected; otherwise, when
Scan returns true it returns the text with nil error, and when Scan
returns false (deadline expiry, EOF or any transport failure) it returns
the empty string with nil error — the scanner's Err is never consulted. -/
def read (connected : Bool) (sc : ScanOutcome) : String × Option GoErr :=
  if connected = false then ("", some .notConnected)
  else
    match sc with
    | .gotLine s => (s, none)
    | .timedOut => ("", none)
    | .failed => ("", none)

/-- Control decision of one listener-loop iteration. -/
inductive IterStep where
  | skip
  | exitLoop
  | process (line : String)
deriving DecidableEq

/-- The error-handling head of a listener-loop iteration: read, continue
on a timeout error, break on any other non-nil error, skip empty or
newline-only results, otherwise process the line. -/
def loopClassify (sc : ScanOutcome) : IterStep :=
  let res := read true sc
  if isTimeoutErr res.2 then .skip
  else if res.2.isSome then .exitLoop
  else if res.1 = "" ∨ res.1 = "\n" then .skip
  else .process res.1

/-- The transport trace during bootstrap: the lines the server will
deliver, in order, and the commands written so far, in order. -/
structure Trace where
  incoming : List String
  sent : List String
deriving DecidableEq

/-- One blocking read over the trace: the next line, or the empty string
when the stream is exhausted (Scan returns false and read yields an empty
string with nil error). -/
def readLine : List String → String × List String
  | [] => ("", [])
  | l :: rest => (l, rest)

/-- writeSuccess over the trace: write the command, read the single reply
line, and check it. -/
def writeSuccessTr (cmd : String) (st : Trace) : WSResult × Trace :=
  let rd := readLine st.incoming
  (writeSuccessCheck rd.1, ⟨rd.2, st.sent ++ [cmd]⟩)

/-- LOGIN_STRING instantiated with the configured credentials. -/
def loginCmd (cfg : Config) : String :=
  "login " ++ cfg.Username ++ " " ++ cfg.Password

/-- SERVER_USE_STRING instantiated with the configured server id. -/
def useCmd (cfg : Config) : String :=
  "use " ++ toString cfg.Server

/-- MSG_LISTENER_STRING: the event subscription command. -/
def notifyCmd : String := "servernotifyregister event=textchannel"

/-- Result of the bootstrap phase of Start: the listener goroutine was
spawned, or an error was returned to the caller, or a writeSuccess call
panicked on a nil response. -/
inductive StartOutcome where
  | started
  | failed (e : WSResult)
  | crashed
deriving DecidableEq

/-- The acknowledged command sequence of Start after the banner: login
(from Start via login), then use and servernotifyregister (from listen),
each awaiting its acknowledgment; any failure returns before the listener
goroutine is spawned. -/
def bootstrap (cfg : Config) (st : Trace) : StartOutcome × Trace :=
  let s1 := writeSuccessTr (loginCmd cfg) st
  match s1.1 with
  | .ok =>
    let s2 := writeSuccessTr (useCmd cfg) s1.2
    match s2.1 with
    | .ok =>
      let s3 := writeSuccessTr notifyCmd s2.2
      match s3.1 with
      | .ok => (.started, s3.2)
      | .crash => (.crashed, s3.2)
      | e => (.failed e, s3.2)
    | .crash => (.crashed, s2.2)
    | e => (.failed e, s2.2)
  | .crash => (.crashed, s1.2)
  | e => (.failed e, s1.2)

/-- Start after a successful dial: read and discard BANNER_LENGTH (two)
lines, then run the bootstrap command sequence. -/
def startModel (cfg : Config) (incoming : List String) : StartOutcome × Trace :=
  let b1 := readLine incoming
  let b2 := readLine b1.2
  bootstrap cfg ⟨b2.2, []⟩

/-- Phase of the listener goroutine: inside the for loop, after the loop
but before the send on clean, or terminated (after the send). -/
inductive LoopPhase where
  | running
  | exitedLoop
  | terminated
deriving DecidableEq

/-- Phase of close(): not yet called, transport closed and blocked
receiving on clean, or returned. -/
inductive ClosePhase where
  | notCalled
  | waiting
  | returned
deriving DecidableEq

/-- Joint state of the shutdown handshake: the goroutine phase, the
close() phase, and how many sends on the unbuffered clean channel have
completed. -/
structure Shutdown where
  loop : LoopPhase
  close : ClosePhase
  signals : Nat
deriving DecidableEq

/-- The initial state: the loop is running, close() not yet called, no
completion signal yet. -/
def shutdownInit : Shutdown := ⟨.running, .notCalled, 0⟩

/-- Interleaved small-step semantics of the handshake. The loop may leave
its for loop at any time (kill observed, or the dead break branch); after
the loop its only statement is the send on clean. close() first closes
the transport and then blocks receiving on clean; since clean is
unbuffered, the send and the receive complete together, after which the
goroutine terminates and close() returns. -/
inductive ShutdownStep : Shutdown → Shutdown → Prop where
  | loopExit (c : ClosePhase) (n : Nat) :
      ShutdownStep ⟨.running, c, n⟩ ⟨.exitedLoop, c, n⟩
  | closeTransport (l : LoopPhase) (n : Nat) :
      ShutdownStep ⟨l, .notCalled, n⟩ ⟨l, .waiting, n⟩
  | handshake (n : Nat) :
      ShutdownStep ⟨.exitedLoop, .waiting, n⟩ ⟨.terminated, .returned, n + 1⟩

/-- Reachability from the initial state. -/
def ShutdownReachable (s : Shutdown) : Prop :=
  Relation.ReflTransGen ShutdownStep shutdownInit s

/-- The key a key=value token contributes per the spec: the text before
the first equals sign. -/
def keyOf (t : List Char) : String :=
  String.mk (t.takeWhile (fun c => !(c = '=')))

/-- The value a key=value token contributes per the spec: the text after
the first equals sign and before the next one (if any), trimmed. -/
def valOf (t : List Char) : String :=
  String.mk (goTrim (((t.dropWhile (fun c => !(c = '='))).drop 1).takeWhile (fun c => !(c = '='))))

/-- Modelled from the spec's description of decodeLine, amended: the
first token is the action; every remaining token must contain at least
one equals sign, contributing key keyOf and value valOf, later duplicates
overwriting earlier ones; a token without an equals sign fails the whole
decode with ErrInvalidResponse; a line with no tokens is the empty no-op
result. Compared against parseResponse. -/
def decodeLineSpec (line : String) : Except ParseErr (Option Response) :=
  match goFields line.toList with
  | [] => .ok none
  | a :: ts =>
    if ts.all (fun t => t.any (fun c => c = '=')) then
      .ok (some ⟨String.mk a, ts.foldl (fun m t => mapInsert (keyOf t) (valOf t) m) []⟩)
    else .error .invalidResponse

/-- The invariant of the shutdown handshake: the goroutine has terminated
exactly when close() has returned, and the number of completed signals is
one after termination and zero before. -/
def ShutdownInv (s : Shutdown) : Prop :=
  (s.loop = .terminated ↔ s.close = .returned) ∧
  s.signals = (if s.loop = .terminated then 1 else 0)

end Tsgo


namespace Tsgo

/-- Dropping the head of an escape-free list keeps it escape-free. -/
theorem hasEsc_cons_false {c : Char} {t : List Char} (h : hasEsc (c :: t) = false) :
    hasEsc t = false := by
  cases t with
  | nil => rfl
  | cons b t' =>
    simp only [hasEsc, Bool.or_eq_false_iff] at h
    exact h.2

/-- escapeChars produces the empty list only from the empty list. -/
theorem escapeChars_eq_nil {t : List Char} : escapeChars t = [] ↔ t = [] := by
  cases t with
  | nil => simp [escapeChars]
  | cons c r =>
    simp only [escapeChars]
    split <;> simp

/-- Unescaping undoes escaping on any character list free of the
backslash-s sequence. -/
theorem escape_roundtrip (l : List Char) (h : hasEsc l = false) :
    unescapeChars (escapeChars l) = l := by
  induction l with
  | nil => rfl
  | cons c t ih =>
    by_cases hc : c = ' '
    · subst hc
      rw [show escapeChars (' ' :: t) = '\\' :: 's' :: escapeChars t by simp [escapeChars]]
      rw [show unescapeChars ('\\' :: 's' :: escapeChars t) = ' ' :: unescapeChars (escapeChars t)
        by simp [unescapeChars]]
      rw [ih (hasEsc_cons_false h)]
    · simp only [escapeChars, if_neg hc]
      cases he : escapeChars t with
      | nil =>
        have ht : t = [] := escapeChars_eq_nil.mp he
        subst ht
        simp [unescapeChars]
      | cons b t2 =>
        have hnb : ¬(c = '\\' ∧ b = 's') := by
          rintro ⟨rfl, rfl⟩
          cases t with
          | nil => simp [escapeChars] at he
          | cons x t3 =>
            by_cases hx : x = ' '
            · subst hx
              simp only [escapeChars, if_pos rfl] at he
              injection he with h1 _
              exact absurd h1 (by decide)
            · simp only [escapeChars, if_neg hx] at he
              injection he with h1 _
              subst h1
              simp [hasEsc] at h
        rw [show unescapeChars (c :: b :: t2) = c :: unescapeChars (b :: t2)
          by simp [unescapeChars, hnb]]
        rw [← he, ih (hasEsc_cons_false h)]

/-- Escaping is the identity on space-free character lists. -/
theorem escape_no_space (l : List Char) (h : ' ' ∉ l) : escapeChars l = l := by
  induction l with
  | nil => rfl
  | cons c t ih =>
    simp only [List.mem_cons, not_or] at h
    have hc : ¬(c = ' ') := fun e => h.1 e.symm
    simp only [escapeChars, if_neg hc]
    rw [ih h.2]

/-- If unescaping produced no space then it replaced nothing. -/
theorem unescape_no_space (l : List Char) (h : ' ' ∉ unescapeChars l) :
    unescapeChars l = l := by
  induction l with
  | nil => rfl
  | cons a rest ih =>
    cases rest with
    | nil => simp [unescapeChars]
    | cons b t =>
      by_cases hab : a = '\\' ∧ b = 's'
      · exact absurd (by simp [unescapeChars, hab]) h
      · have h' : ' ' ∉ unescapeChars (b :: t) := by
          intro hm
          exact h (by simp only [unescapeChars, if_neg hab, List.mem_cons]; exact Or.inr hm)
        rw [show unescapeChars (a :: b :: t) = a :: unescapeChars (b :: t)
          by simp [unescapeChars, hab]]
        rw [ih h']

/-- Only the literal string ok unescapes to ok. -/
theorem unescape_eq_ok {m : String} (h : unescape m = "ok") : m = "ok" := by
  have h2 : String.mk (unescapeChars m.data) = "ok" := h
  have hd : unescapeChars m.data = ['o', 'k'] := congrArg String.data h2
  have hns : ' ' ∉ unescapeChars m.data := by
    rw [hd]
    decide
  have hid := unescape_no_space m.data hns
  rw [hid] at hd
  calc m = String.mk m.data := rfl
    _ = String.mk ['o', 'k'] := by rw [hd]
    _ = "ok" := rfl

/-- Response.Msg equals ok exactly when the raw msg field is the literal
string ok. -/
theorem Msg_eq_ok_iff (r : Response) : r.Msg = "ok" ↔ r.Data.lookup "msg" = some "ok" := by
  constructor
  · intro h
    unfold Response.Msg at h
    cases hm : r.Data.lookup "msg" with
    | none =>
      rw [hm] at h
      exact absurd h (by decide)
    | some m =>
      rw [hm] at h
      rw [unescape_eq_ok h]
  · intro h
    unfold Response.Msg
    rw [h]
    decide

/-- C7 (amended): for every text containing at least one space and no
occurrence of the two-character sequence backslash-s, unescaping the
escaped form gives back the original text; and for every text with no
spaces, escape is the identity. -/
theorem claim_C7_escape_roundtrip :
    (∀ s : String, ' ' ∈ s.toList → hasEsc s.toList = false → unescape (escape s) = s) ∧
    (∀ s : String, ' ' ∉ s.toList → escape s = s) := by
  constructor
  · intro s _ hesc
    show String.mk (unescapeChars (escapeChars s.data)) = s
    rw [escape_roundtrip s.data hesc]
  · intro s h
    show String.mk (escapeChars s.data) = s
    rw [escape_no_space s.data h]

/-- C7 witness: the round trip at the space-containing, escape-free text
a-space-b, and identity of escape at the spaceless text ab. -/
theorem claim_C7_witness :
    (' ' ∈ ("a b" : String).toList ∧ hasEsc ("a b" : String).toList = false ∧
      unescape (escape "a b") = "a b") ∧
    (' ' ∉ ("ab" : String).toList ∧ escape "ab" = "ab") :=
  ⟨⟨by decide, by decide, claim_C7_escape_roundtrip.1 "a b" (by decide) (by decide)⟩,
   ⟨by decide, claim_C7_escape_roundtrip.2 "ab" (by decide)⟩⟩

/-- C7 counterexample: the text space-backslash-s contains a space, yet
unescape of its escape is two spaces, not the original text, because the
pre-existing backslash-s is also turned into a space. -/
theorem claim_C7_counterexample :
    ' ' ∈ (" \\s" : String).toList ∧ unescape (escape " \\s") ≠ " \\s" := by decide

/-- C8 counterexample: a configuration with every string field present
but the server id left at Go's zero value (the only representable form of
a missing int field) is accepted by New, refuting the claim that a
missing server-id fails construction. -/
theorem claim_C8_counterexample :
    New ⟨"127.0.0.1", "10011", "serveradmin", "password", 0⟩ =
      .ok ⟨"127.0.0.1", "10011", "serveradmin", "password", 0⟩ ∧
    (⟨"127.0.0.1", "10011", "serveradmin", "password", 0⟩ : Config).Server = 0 := by decide

/-- C8 (amended): New fails fast, before any connection attempt, exactly
when one of address, port, username, password is missing; the server id
is not validated; when the four string fields are present it returns the
bot. -/
theorem claim_C8_validation (cfg : Config) :
    (New cfg = .ok cfg ↔
      (cfg.Address ≠ "" ∧ cfg.Password ≠ "" ∧ cfg.Username ≠ "" ∧ cfg.Port ≠ "")) ∧
    ((∃ e, New cfg = .error e) ↔
      (cfg.Address = "" ∨ cfg.Password = "" ∨ cfg.Username = "" ∨ cfg.Port = "")) := by
  unfold New
  by_cases h1 : cfg.Address = "" <;> by_cases h2 : cfg.Password = "" <;>
    by_cases h3 : cfg.Username = "" <;> by_cases h4 : cfg.Port = "" <;>
    simp [h1, h2, h3, h4]

/-- C9 (code bug): a reply that decodes to the nil response crashes
writeSuccess (parsed.Action dereferences nil), and a whitespace-only line
crashes the listener iteration (r.Data dereferences nil), instead of
being treated as nothing to process. -/
theorem claim_C9_nil_dereference :
    writeSuccessCheck "" = WSResult.crash ∧
    (∀ (cfg : Config) (hnd : Option HandlerFn),
      processLine cfg hnd " " = { crash := some CrashCause.nilResponse }) := by
  constructor
  · decide
  · intro cfg hnd
    have hp : parseResponse " " = .ok none := by decide
    unfold processLine
    rw [if_neg (by decide), hp]

/-- C10 (code bug): a bot built by New on which AddHandler was never
called processes a chat event by calling the nil handler function — the
invocation is not guarded and nothing rejects a session without a
handler. -/
theorem claim_C10_nil_handler :
    processLine ⟨"127.0.0.1", "10011", "serveradmin", "password", 1⟩ none
      "notifytextmessage msg=hi invokerid=5 invokername=Bob invokeruid=abc" =
      { crash := some CrashCause.nilHandler } := by decide

/-- C3 (code bug): read never surfaces a scanner failure (it returns the
empty string with nil error whether Scan failed on a deadline expiry or
on any other transport failure, the forced close included), so the
listener loop's timeout branch and its error break branch are both
unreachable: a deadline expiry skips the iteration, but so does every
other read failure — no read failure terminates the loop. -/
theorem claim_C3_read_failures :
    (∀ sc, (read true sc).2 = none) ∧
    (∀ sc, loopClassify sc ≠ IterStep.exitLoop) ∧
    loopClassify ScanOutcome.timedOut = IterStep.skip ∧
    loopClassify ScanOutcome.failed = IterStep.skip := by
  refine ⟨?_, ?_, by decide, by decide⟩
  · intro sc
    cases sc <;> rfl
  · intro sc
    cases sc with
    | gotLine s =>
      have hcl : loopClassify (.gotLine s) =
          if s = "" ∨ s = "\n" then .skip else .process s := by
        simp [loopClassify, read, isTimeoutErr]
      rw [hcl]
      split <;> simp
    | timedOut => decide
    | failed => decide

/-- C1 (amended): for a reply line that decodes to a response, writeSuccess
succeeds exactly when the action is the error token and the raw msg field
is the literal ok; any other action yields the protocol-violation error
with the raw line; any other msg yields an error whose reason is the
unescaped msg text. -/
theorem claim_C1_ack_check :
    ∀ (reply : String) (r : Response), parseResponse reply = .ok (some r) →
      ((writeSuccessCheck reply = WSResult.ok) ↔
        (r.Action = "error" ∧ r.Data.lookup "msg" = some "ok")) ∧
      (r.Action ≠ "error" → writeSuccessCheck reply = WSResult.invalidResponse reply) ∧
      (r.Action = "error" → r.Msg ≠ "ok" →
        writeSuccessCheck reply = WSResult.serverError r.Msg) := by
  intro reply r hp
  by_cases ha : r.Action = "error"
  · by_cases hm : r.Msg = "ok"
    · have hw : writeSuccessCheck reply = WSResult.ok := by
        unfold writeSuccessCheck
        rw [hp]
        simp [ha, hm]
      refine ⟨?_, fun hna => absurd ha hna, fun _ hne => absurd hm hne⟩
      rw [hw]
      simp [ha, (Msg_eq_ok_iff r).mp hm]
    · have hw : writeSuccessCheck reply = WSResult.serverError r.Msg := by
        unfold writeSuccessCheck
        rw [hp]
        simp [ha, hm]
      refine ⟨?_, fun hna => absurd ha hna, fun _ _ => hw⟩
      rw [hw]
      constructor
      · intro h
        exact absurd h (by simp)
      · rintro ⟨_, hlk⟩
        exact absurd ((Msg_eq_ok_iff r).mpr hlk) hm
  · have hw : writeSuccessCheck reply = WSResult.invalidResponse reply := by
      unfold writeSuccessCheck
      rw [hp]
      simp [ha]
    refine ⟨?_, fun _ => hw, fun haa _ => absurd haa ha⟩
    rw [hw]
    constructor
    · intro h
      exact absurd h (by simp)
    · rintro ⟨haa, _⟩
      exact absurd haa ha

/-- C1 witness: success at a msg-ok acknowledgment, the server's text at
a rejection, and the protocol violation at a non-error action. -/
theorem claim_C1_witness :
    writeSuccessCheck "error id=0 msg=ok" = WSResult.ok ∧
    writeSuccessCheck "error id=0 msg=denied" = WSResult.serverError "denied" ∧
    writeSuccessCheck "notifytextmessage a=b" =
      WSResult.invalidResponse "notifytextmessage a=b" :=
  ⟨((claim_C1_ack_check "error id=0 msg=ok" ⟨"error", [("id", "0"), ("msg", "ok")]⟩
      (by decide)).1).mpr (by decide),
   (claim_C1_ack_check "error id=0 msg=denied" ⟨"error", [("id", "0"), ("msg", "denied")]⟩
      (by decide)).2.2 (by decide) (by decide),
   (claim_C1_ack_check "notifytextmessage a=b" ⟨"notifytextmessage", [("a", "b")]⟩
      (by decide)).2.1 (by decide)⟩

/-- C1 counterexample: the msg field of the reply is the literal text
a-backslash-s-b, but the failure reason surfaced by writeSuccess is the
unescaped a-space-b, not that literal field text. -/
theorem claim_C1_counterexample :
    parseResponse "error id=0 msg=a\\sb" =
      .ok (some ⟨"error", [("id", "0"), ("msg", "a\\sb")]⟩) ∧
    writeSuccessCheck "error id=0 msg=a\\sb" = WSResult.serverError "a b" ∧
    ("a b" : String) ≠ "a\\sb" := by decide

/-- goSplitEq never yields the empty list of segments. -/
theorem goSplitEq_ne_nil (t : List Char) : goSplitEq t ≠ [] := by
  cases t with
  | nil => simp [goSplitEq]
  | cons c r =>
    simp only [goSplitEq]
    split
    · simp
    · split <;> simp

/-- Structure of goSplitEq: the head segment is everything before the
first equals sign; there are further segments exactly when the token
contains an equals sign, and they are the split of the remainder after
that sign. -/
theorem goSplitEq_structure (t : List Char) :
    ∃ ts, goSplitEq t = t.takeWhile (fun c => !(c = '=')) :: ts ∧
      (ts = [] ↔ t.any (fun c => c = '=') = false) ∧
      (ts ≠ [] → ts = goSplitEq ((t.dropWhile (fun c => !(c = '='))).drop 1)) := by
  induction t with
  | nil => exact ⟨[], by simp [goSplitEq], by simp, by simp⟩
  | cons c r ih =>
    by_cases hc : c = '='
    · subst hc
      refine ⟨goSplitEq r, ?_, ?_, ?_⟩
      · simp [goSplitEq, List.takeWhile]
      · constructor
        · intro h
          exact absurd h (goSplitEq_ne_nil r)
        · intro h
          simp at h
      · intro _
        simp [List.dropWhile]
    · obtain ⟨ts, h1, h2, h3⟩ := ih
      refine ⟨ts, ?_, ?_, ?_⟩
      · simp only [goSplitEq, if_neg hc, h1, List.takeWhile]
        simp [hc]
      · rw [h2]
        simp [hc]
      · intro hne
        rw [h3 hne]
        simp [List.dropWhile, hc]

/-- buildVals succeeds exactly when every token contains an equals sign,
and then folds in each token's key (before the first equals sign) and
value (between the first and second, trimmed) in order. -/
theorem buildVals_spec (ts : List (List Char)) :
    ∀ vals, buildVals vals ts =
      (if ts.all (fun t => t.any (fun c => c = '=')) then
        .ok (ts.foldl (fun m t => mapInsert (keyOf t) (valOf t) m) vals)
      else .error .invalidResponse) := by
  induction ts with
  | nil => intro vals; simp [buildVals]
  | cons t ts ih =>
    intro vals
    obtain ⟨rest, h1, h2, h3⟩ := goSplitEq_structure t
    by_cases ha : t.any (fun c => c = '=') = true
    · have hne : rest ≠ [] := by
        intro h0
        rw [h2.mp h0] at ha
        cases ha
      obtain ⟨v, rest2, hv⟩ : ∃ v rest2, rest = v :: rest2 := by
        cases rest with
        | nil => exact absurd rfl hne
        | cons v r2 => exact ⟨v, r2, rfl⟩
      have hrem := h3 hne
      obtain ⟨ts2, g1, _, _⟩ := goSplitEq_structure ((t.dropWhile (fun c => !(c = '='))).drop 1)
      have hv2 : v = ((t.dropWhile (fun c => !(c = '='))).drop 1).takeWhile (fun c => !(c = '=')) := by
        rw [g1] at hrem
        rw [hrem] at hv
        exact (List.cons.injEq _ _ _ _ ▸ hv).1.symm
      have hstep : buildVals vals (t :: ts) =
          buildVals (mapInsert (keyOf t) (valOf t) vals) ts := by
        conv_lhs => rw [buildVals]
        rw [h1, hv, hv2]
        rfl
      rw [hstep, ih]
      simp [List.all_cons, ha]
    · have ha' : t.any (fun c => c = '=') = false := by
        cases hx : t.any (fun c => c = '=') with
        | false => rfl
        | true => exact absurd hx ha
      have hrest : rest = [] := h2.mpr ha'
      subst hrest
      have hstep : buildVals vals (t :: ts) = .error .invalidResponse := by
        conv_lhs => rw [buildVals]
        rw [h1]
      rw [hstep, if_neg]
      simp [List.all_cons, ha']

/-- C6 (amended): parseResponse takes the first whitespace-delimited token
as the action and requires every remaining token to contain at least one
equals sign; the key is the text before the first equals sign and the
value the text between the first and the second (trimmed), later
duplicate keys overwriting earlier ones; a token without an equals sign
fails the whole decode with ErrInvalidResponse, and a line without tokens
yields the empty no-op result rather than an error. -/
theorem claim_C6_decode (line : String) : parseResponse line = decodeLineSpec line := by
  unfold parseResponse decodeLineSpec
  cases goFields line.toList with
  | nil => rfl
  | cons a fs =>
    dsimp only
    rw [buildVals_spec fs []]
    by_cases h : fs.all (fun t => t.any (fun c => c = '=')) = true
    · simp [h]
    · simp [h]

/-- C6 counterexample: the token b-eq-c-eq-d contains two equals signs,
which the claim says must fail the decode, yet parseResponse accepts the
line and truncates the value to the text before the second equals sign. -/
theorem claim_C6_counterexample :
    parseResponse "a b=c=d" = .ok (some ⟨"a", [("b", "c")]⟩) ∧
    ("b=c=d" : String).toList.count '=' = 2 := by decide

/-- C4: for every non-empty line decoded by the listener loop, a decoded
invokeruid equal to the configured username discards the line without
invoking the handler; otherwise a notifytextmessage action with an
integer invokerid builds the Message (unescaped text, invoker id, name,
uid) and invokes the handler synchronously, sending a non-empty reply
back as the exact sendtextmessage command with spaces escaped and sending
nothing for an empty reply or a handler error; any other action is
ignored. -/
theorem claim_C4_event_dispatch :
    ∀ (cfg : Config) (f : HandlerFn) (line : String) (r : Response),
      parseResponse line = .ok (some r) → line ≠ "" → line ≠ "\n" →
      (((r.Data.lookup "invokeruid").getD "" = cfg.Username →
          processLine cfg (some f) line = {}) ∧
       ((r.Data.lookup "invokeruid").getD "" ≠ cfg.Username → r.Action ≠ MSG_ACTION →
          processLine cfg (some f) line = {}) ∧
       (∀ invId : Int, (r.Data.lookup "invokeruid").getD "" ≠ cfg.Username →
          r.Action = MSG_ACTION →
          atoi ((r.Data.lookup "invokerid").getD "") = some invId →
          (processLine cfg (some f) line).invoked = some (msgOfR r invId) ∧
          (processLine cfg (some f) line).crash = none ∧
          ((f (msgOfR r invId)).2 = none → (f (msgOfR r invId)).1 ≠ "" →
            (processLine cfg (some f) line).sent =
              some (sendCmd invId (f (msgOfR r invId)).1)) ∧
          ((f (msgOfR r invId)).2 = none → (f (msgOfR r invId)).1 = "" →
            (processLine cfg (some f) line).sent = none) ∧
          ((f (msgOfR r invId)).2 ≠ none →
            (processLine cfg (some f) line).sent = none))) := by
  intro cfg f line r hp hne1 hne2
  have hif : ¬(line = "" ∨ line = "\n") := by
    rintro (h | h)
    · exact hne1 h
    · exact hne2 h
  have h0 : processLine cfg (some f) line =
      (if (r.Data.lookup "invokeruid").getD "" = cfg.Username then {}
       else if r.Action = MSG_ACTION then
         match atoi ((r.Data.lookup "invokerid").getD "") with
         | none => {}
         | some invId =>
           match f (msgOfR r invId) with
           | (_, some _) => { invoked := some (msgOfR r invId) }
           | (reply, none) =>
             if reply = "" then { invoked := some (msgOfR r invId) }
             else { invoked := some (msgOfR r invId), sent := some (sendCmd invId reply) }
       else {}) := by
    unfold processLine
    rw [if_neg hif, hp]
  refine ⟨?_, ?_, ?_⟩
  · intro hg
    rw [h0, if_pos hg]
  · intro hg hact
    rw [h0, if_neg hg, if_neg hact]
  · intro invId hg hact hatoi
    rw [h0, if_neg hg, if_pos hact, hatoi]
    dsimp only
    rcases hfm : f (msgOfR r invId) with ⟨reply, herr⟩
    cases herr with
    | some e => simp
    | none =>
      by_cases hr : reply = ""
      · simp [hr]
      · simp [hr]

/-- C4 witness: the end-to-end chat scenario — a notifytextmessage event
with escaped text, the handler replying with a two-word string, and the
exact escaped sendtextmessage command being produced. -/
theorem claim_C4_witness :
    (processLine ⟨"127.0.0.1", "10011", "serveradmin", "password", 1⟩
        (some (fun m => (if m.Msg = "hi there" then "po ng" else "", none)))
        "notifytextmessage msg=hi\\sthere invokerid=5 invokername=Bob invokeruid=abc").invoked =
      some ⟨"hi there", 5, "Bob", "abc"⟩ ∧
    (processLine ⟨"127.0.0.1", "10011", "serveradmin", "password", 1⟩
        (some (fun m => (if m.Msg = "hi there" then "po ng" else "", none)))
        "notifytextmessage msg=hi\\sthere invokerid=5 invokername=Bob invokeruid=abc").sent =
      some "sendtextmessage targetmode=2 target=5 msg=po\\sng" := by
  have h := claim_C4_event_dispatch ⟨"127.0.0.1", "10011", "serveradmin", "password", 1⟩
      (fun m => (if m.Msg = "hi there" then "po ng" else "", none))
      "notifytextmessage msg=hi\\sthere invokerid=5 invokername=Bob invokeruid=abc"
      ⟨"notifytextmessage",
        [("msg", "hi\\sthere"), ("invokerid", "5"), ("invokername", "Bob"), ("invokeruid", "abc")]⟩
      (by decide) (by decide) (by decide)
  have h4 := h.2.2 5 (by decide) (by decide) (by decide)
  exact ⟨h4.1.trans (by decide), (h4.2.2.1 (by decide) (by decide)).trans (by decide)⟩

/-- C2: Start reads and discards exactly two banner lines (whatever their
content), then issues login, use and servernotifyregister strictly in
that order, each consuming its single acknowledgment line before the next
command is written; the listener is started exactly when all three
acknowledgments succeed, and a failing acknowledgment is returned as the
error with no later command sent and no listener started. -/
theorem claim_C2_bootstrap :
    ∀ (cfg : Config) (b1 b2 r1 r2 r3 : String) (tail : List String),
      startModel cfg (b1 :: b2 :: r1 :: r2 :: r3 :: tail) =
        bootstrap cfg ⟨r1 :: r2 :: r3 :: tail, []⟩ ∧
      ((startModel cfg (b1 :: b2 :: r1 :: r2 :: r3 :: tail)).1 = .started ↔
        (writeSuccessCheck r1 = .ok ∧ writeSuccessCheck r2 = .ok ∧
          writeSuccessCheck r3 = .ok)) ∧
      (startModel cfg (b1 :: b2 :: r1 :: r2 :: r3 :: tail)).2.sent =
        (if writeSuccessCheck r1 ≠ .ok then [loginCmd cfg]
         else if writeSuccessCheck r2 ≠ .ok then [loginCmd cfg, useCmd cfg]
         else [loginCmd cfg, useCmd cfg, notifyCmd]) ∧
      (writeSuccessCheck r1 ≠ .ok → writeSuccessCheck r1 ≠ .crash →
        (startModel cfg (b1 :: b2 :: r1 :: r2 :: r3 :: tail)).1 =
          .failed (writeSuccessCheck r1)) ∧
      (writeSuccessCheck r1 = .ok → writeSuccessCheck r2 ≠ .ok →
        writeSuccessCheck r2 ≠ .crash →
        (startModel cfg (b1 :: b2 :: r1 :: r2 :: r3 :: tail)).1 =
          .failed (writeSuccessCheck r2)) ∧
      (writeSuccessCheck r1 = .ok → writeSuccessCheck r2 = .ok →
        writeSuccessCheck r3 ≠ .ok → writeSuccessCheck r3 ≠ .crash →
        (startModel cfg (b1 :: b2 :: r1 :: r2 :: r3 :: tail)).1 =
          .failed (writeSuccessCheck r3)) := by
  intro cfg b1 b2 r1 r2 r3 tail
  refine ⟨rfl, ?_⟩
  cases h1 : writeSuccessCheck r1 <;>
    cases h2 : writeSuccessCheck r2 <;>
    cases h3 : writeSuccessCheck r3 <;>
    simp [startModel, readLine, bootstrap, writeSuccessTr, h1, h2, h3]

/-- C2 witness: the failed-login scenario — the server acknowledges the
login command with msg failedlogin; Start surfaces the server error, only
the login command was sent, and the listener is not started. -/
theorem claim_C2_witness :
    (startModel ⟨"127.0.0.1", "10011", "serveradmin", "password", 1⟩
        ["banner1", "banner2", "error id=0 msg=failedlogin", "", ""]).1 =
      .failed (.serverError "failedlogin") ∧
    (startModel ⟨"127.0.0.1", "10011", "serveradmin", "password", 1⟩
        ["banner1", "banner2", "error id=0 msg=failedlogin", "", ""]).2.sent =
      ["login serveradmin password"] := by
  have h := claim_C2_bootstrap ⟨"127.0.0.1", "10011", "serveradmin", "password", 1⟩
      "banner1" "banner2" "error id=0 msg=failedlogin" "" "" []
  exact ⟨(h.2.2.2.1 (by decide) (by decide)).trans (by decide),
    h.2.2.1.trans (by decide)⟩

/-- Invariant proof for the shutdown handshake: in every reachable state
the goroutine has terminated exactly when close() has returned, and the
signal count is one after termination and zero before. -/
theorem shutdown_inv (s : Shutdown) (h : ShutdownReachable s) : ShutdownInv s := by
  induction h with
  | refl => exact ⟨by simp [shutdownInit], by simp [shutdownInit]⟩
  | tail hr hstep ih =>
    cases hstep with
    | loopExit c n =>
      obtain ⟨ih1, ih2⟩ := ih
      have hcne : c ≠ .returned := fun hc =>
        absurd (ih1.mpr hc) (show LoopPhase.running ≠ LoopPhase.terminated by decide)
      refine ⟨⟨fun h =>
        absurd h (show LoopPhase.exitedLoop ≠ LoopPhase.terminated by decide),
        fun hc => absurd hc hcne⟩, ?_⟩
      simpa using ih2
    | closeTransport l n =>
      obtain ⟨ih1, ih2⟩ := ih
      have hlne : l ≠ .terminated := fun hl =>
        absurd (ih1.mp hl) (show ClosePhase.notCalled ≠ ClosePhase.returned by decide)
      refine ⟨⟨fun h => absurd h hlne, fun hc =>
        absurd hc (show ClosePhase.waiting ≠ ClosePhase.returned by decide)⟩, ?_⟩
      exact ih2
    | handshake n =>
      obtain ⟨ih1, ih2⟩ := ih
      have hn : n = 0 := by simpa using ih2
      subst hn
      exact ⟨by simp, by simp⟩

/-- C5: in every reachable state of the shutdown handshake the completion
signal has fired at most once; once the listener goroutine has terminated
it has fired exactly once; close() has returned only if the signal fired
exactly once and the goroutine terminated; and any step into the
returned state starts from the state in which the transport has already
been closed — so close never returns while the loop is still running and
always closes the transport first. -/
theorem claim_C5_shutdown :
    (∀ s : Shutdown, ShutdownReachable s →
      s.signals ≤ 1 ∧
      (s.loop = .terminated → s.signals = 1) ∧
      (s.close = .returned → s.signals = 1 ∧ s.loop = .terminated)) ∧
    (∀ t u : Shutdown, ShutdownReachable t → ShutdownStep t u →
      u.close = .returned → t.close = .waiting) := by
  constructor
  · intro s hs
    obtain ⟨i1, i2⟩ := shutdown_inv s hs
    refine ⟨?_, ?_, ?_⟩
    · rw [i2]
      split <;> simp
    · intro h
      rw [i2, if_pos h]
    · intro hc
      have hl : s.loop = .terminated := i1.mpr hc
      exact ⟨by rw [i2, if_pos hl], hl⟩
  · intro t u ht hstep hret
    cases hstep with
    | loopExit c n =>
      obtain ⟨i1, _⟩ := shutdown_inv _ ht
      exact absurd (i1.mpr hret)
        (show LoopPhase.running ≠ LoopPhase.terminated by decide)
    | closeTransport l n =>
      exact absurd hret (show ClosePhase.waiting ≠ ClosePhase.returned by decide)
    | handshake n => rfl

/-- C5 witness: the full handshake run — loop exit, transport close,
rendezvous — reaches the terminal state, where the theorem yields a
single signal and a terminated loop. -/
theorem claim_C5_witness :
    (⟨.terminated, .returned, 1⟩ : Shutdown).signals = 1 ∧
    (⟨.terminated, .returned, 1⟩ : Shutdown).loop = .terminated := by
  have h1 : ShutdownReachable ⟨.exitedLoop, .notCalled, 0⟩ :=
    Relation.ReflTransGen.single (ShutdownStep.loopExit _ _)
  have h2 : ShutdownReachable ⟨.exitedLoop, .waiting, 0⟩ :=
    Relation.ReflTransGen.tail h1 (ShutdownStep.closeTransport _ _)
  have h3 : ShutdownReachable ⟨.terminated, .returned, 1⟩ :=
    Relation.ReflTransGen.tail h2 (ShutdownStep.handshake 0)
  exact (claim_C5_shutdown.1 _ h3).2.2 rfl

end Tsgo
